import Mathlib

/-!
Verification of the local blob chunk cache (`rafs/src/storage/cache/blobcache.rs`)
against its natural-language specification.

The Rust source is shallowly embedded: pure control flow becomes Lean functions,
mutation becomes explicit state passing, fallible system calls and the external
collaborators (backend, decompressor, digest check) become environment records of
outcome functions.  `Option` at the outermost layer models partiality that the
shallow embedding cannot express otherwise: `none` stands for a panic (an
`unwrap` of `None`) or for the `pwrite` retry loop never being given a
non-`EINTR` result.
-/

namespace BlobCacheModel

/-- Error kinds of the spec's error taxonomy (section 7); `Interrupted` is EINTR. -/
inductive ErrKind
  | NotFound
  | InvalidArgument
  | IntegrityViolation
  | Interrupted
  | IoOther
  | NotSupported
  | BackendError
  deriving DecidableEq, Repr

/-- Per-entry readiness, mirroring `enum CacheStatus` (blobcache.rs lines 37-41). -/
inductive CacheStatus
  | Ready
  | NotReady
  deriving DecidableEq, Repr

/-- Chunk descriptor capability (`RafsChunkInfo`): digest plus the compressed and
decompressed offset/size within the blob.  The digest is abstracted to a `Nat`. -/
structure ChunkInfo where
  block_id : Nat
  compress_offset : Nat
  compress_size : Nat
  decompress_offset : Nat
  decompress_size : Nat
  deriving DecidableEq, Repr

/-- Compression algorithm tag (`compress::Algorithm`); `GZip` is the streaming
family, the others are the non-streaming family. -/
inductive Algorithm
  | NoneAlg
  | LZ4Block
  | GZip
  deriving DecidableEq, Repr

/-- Mirror of `struct BlobCacheEntry` (lines 43-47): readiness, the chunk
descriptor and the raw fd of the containing blob cache file. -/
structure BlobCacheEntry where
  status : CacheStatus
  chunk : ChunkInfo
  fd : Nat
  deriving DecidableEq, Repr

/-- Mirror of `BlobCacheEntry::is_ready` (lines 58-60). -/
def BlobCacheEntry.is_ready (e : BlobCacheEntry) : Bool :=
  match e.status with
  | CacheStatus.Ready => true
  | CacheStatus.NotReady => false

/-- Mirror of `BlobCacheEntry::set_ready` (lines 62-64). -/
def BlobCacheEntry.set_ready (e : BlobCacheEntry) : BlobCacheEntry :=
  { e with status := CacheStatus.Ready }

/-- Outcome of one `uio::pwrite` call: success with a byte count, or an error kind. -/
inductive PwriteResult
  | ok (n : Nat)
  | err (k : ErrKind)
  deriving DecidableEq, Repr

/-- Mirror of `BlobCacheEntry::cache` (lines 77-97): positional-write loop.  The
list is the sequence of outcomes successive `pwrite` calls report in this
execution; the loop breaks on the first success (then sets the entry Ready) and
returns the first non-`Interrupted` error unchanged, retrying on `Interrupted`.
`none` models the loop never terminating (only `Interrupted` outcomes supplied). -/
def cacheWrite : List PwriteResult → BlobCacheEntry → Option (Except ErrKind Unit × BlobCacheEntry)
  | [], _ => none
  | PwriteResult.ok _ :: _, e => some (Except.ok (), e.set_ready)
  | PwriteResult.err k :: rest, e =>
    if k = ErrKind.Interrupted then cacheWrite rest e else some (Except.error k, e)

/-- Configuration bits of `BlobCache` used by the pipeline: `is_compressed`
(`cache_compressed`), `validate` (`cache_validate`) and the compressor tag. -/
structure Config where
  is_compressed : Bool
  validate : Bool
  compressor : Algorithm
  deriving DecidableEq, Repr

/-- Collaborator outcomes for the chunk I/O pipeline.  `pread fd len offset`
models `uio::pread` into a buffer of length `len`; `dupSeek fd offset` models the
`dup` + `seek` of the streaming path; `processRaw cki need_validate` models
`process_raw_chunk` (decompress + optional digest check); `backendFetch` models
the backend fetch + decompress part of `read_backend_chunk`; `pwrites` feeds the
persist loop. -/
structure IoEnv where
  pread : Nat → Nat → Nat → Except ErrKind Nat
  dupSeek : Nat → Nat → Except ErrKind Unit
  processRaw : ChunkInfo → Bool → Except ErrKind Unit
  backendFetch : Except ErrKind Unit
  pwrites : List PwriteResult

/-- True when an `Except` is `ok`, as Rust's `Result::is_ok`. -/
def isOkE {α : Type} (r : Except ErrKind α) : Bool :=
  match r with
  | Except.ok _ => true
  | Except.error _ => false

/-- Mirror of `BlobCache::read_blobcache_chunk` (lines 260-321).  The on-disk
offset is the compressed offset when the cache stores compressed data, else the
decompressed offset.  Non-streaming compressors positional-read `rawLen` bytes
(the compressed size into a temporary when `is_compressed`, else directly into
the `chunkLen`-byte destination) and report `InvalidArgument` on a zero or
mismatched read length; the streaming compressor (`GZip`) instead duplicates the
fd and seeks.  Both paths then run `process_raw_chunk` with `need_validate`. -/
def read_blobcache_chunk (cfg : Config) (env : IoEnv) (fd : Nat) (cki : ChunkInfo)
    (chunkLen : Nat) (need_validate : Bool) : Except ErrKind Unit :=
  let offset := if cfg.is_compressed then cki.compress_offset else cki.decompress_offset
  let rawLen :=
    if cfg.is_compressed ∧ cfg.compressor ≠ Algorithm.GZip then cki.compress_size else chunkLen
  if cfg.compressor ≠ Algorithm.GZip then
    match env.pread fd rawLen offset with
    | Except.error k => Except.error k
    | Except.ok nr =>
      if nr = 0 ∨ nr ≠ rawLen then Except.error ErrKind.InvalidArgument
      else env.processRaw cki need_validate
  else
    match env.dupSeek fd offset with
    | Except.error k => Except.error k
    | Except.ok _ => env.processRaw cki need_validate

/-- Modelled from the spec: `readv` (storage/utils.rs, not under src/) performs a
positional scatter-read into `bufs` (modelled by their capacities) "for up to
`size` bytes" and returns the bytes read, which never exceeds the requested
maximum nor the total destination capacity. -/
def readvCount (bufs : List Nat) (maxSize : Nat) : Nat :=
  min maxSize bufs.sum

/-- Modelled from the spec: `copyv` (storage/utils.rs, not under src/)
gather-copies from the `srcLen`-byte scratch buffer into `bufs` with source
offset `offset` and length `size`, returning the number of bytes copied; an
impossible source offset is an invalid-argument error ("buffer-size
violations"). -/
def copyv (srcLen : Nat) (bufs : List Nat) (offset size : Nat) : Except ErrKind Nat :=
  if srcLen < offset then Except.error ErrKind.InvalidArgument
  else Except.ok (min size (min (srcLen - offset) bufs.sum))

/-- The fast-path guard of `entry_read` (line 194):
`!self.is_compressed && !self.need_validate() && cache_entry.is_ready()`. -/
def fast_cond (cfg : Config) (e : BlobCacheEntry) : Bool :=
  !cfg.is_compressed && !cfg.validate && e.is_ready

/-- The buffer-reuse guard of `entry_read` (line 207):
`!self.is_compressed && bufs.len() == 1 && bufs[0].len() >= d_size && offset == 0`. -/
def reuse_cond (cfg : Config) (bufs : List Nat) (d_size offset : Nat) : Bool :=
  !cfg.is_compressed && bufs.length == 1 && decide (d_size ≤ bufs.headD 0) && offset == 0

/-- The cache-recovery guard of `entry_read` (line 220):
`self.compressor() != compress::Algorithm::GZip || cache_entry.is_ready()`. -/
def recovery_cond (cfg : Config) (e : BlobCacheEntry) : Bool :=
  !(cfg.compressor == Algorithm.GZip) || e.is_ready

/-- The copy-out step of `entry_read` (lines 250-257): with the reuse flag the
scratch aliases the destination and its full length `d_size` is returned,
otherwise `copyv` gathers `size` bytes from source offset `offset`. -/
def copy_out (reuse : Bool) (d_size : Nat) (bufs : List Nat) (offset size : Nat) :
    Except ErrKind Nat :=
  if reuse then Except.ok d_size else copyv d_size bufs offset size

/-- Observable actions of one `entry_read` call, for stating the claims:
which path ran, whether a scratch buffer was allocated, whether and with which
`need_validate` flag cache recovery was attempted, whether the backend was
fetched, at which offset the persist wrote, and the fast path's `readv`
arguments (fd, absolute offset, max size). -/
structure ReadTrace where
  fastPath : Bool
  reuse : Bool
  scratchAllocated : Bool
  recoveryAttempted : Bool
  recoveryNeedValidate : Option Bool
  backendCalled : Bool
  persistOffset : Option Nat
  readvArgs : Option (Nat × Nat × Nat)
  deriving DecidableEq, Repr

/-- The backend-miss arm of `entry_read` (lines 239-248): fetch the chunk through
`read_backend_chunk`, whose fetch/decompress failure propagates (`?`); on fetch
success the persist closure writes the compressed bytes at `compress_offset` or
the decompressed bytes at `decompress_offset`.  Modelled from the spec:
`read_backend_chunk` itself (cache/mod.rs, not under src/) logs and ignores the
persist closure's error — "persist errors are logged but do not fail the read" —
so the entry returned by `cacheWrite` (Ready on success, unchanged on failure)
flows on to the copy-out step either way.  `attempted` records whether cache
recovery was tried before falling through, with its `need_validate` flag. -/
def entry_read_miss (cfg : Config) (env : IoEnv) (entry : BlobCacheEntry)
    (bufs : List Nat) (offset size : Nat) (reuse : Bool) (attempted : Option Bool) :
    Option (Except ErrKind Nat × BlobCacheEntry × ReadTrace) :=
  match env.backendFetch with
  | Except.error k =>
    some (Except.error k, entry,
      { fastPath := false, reuse := reuse, scratchAllocated := !reuse,
        recoveryAttempted := attempted.isSome, recoveryNeedValidate := attempted,
        backendCalled := true, persistOffset := none, readvArgs := none })
  | Except.ok _ =>
    let c_offset :=
      if cfg.is_compressed then entry.chunk.compress_offset else entry.chunk.decompress_offset
    match cacheWrite env.pwrites entry with
    | none => none
    | some (_, e2) =>
      some (copy_out reuse entry.chunk.decompress_size bufs offset size, e2,
        { fastPath := false, reuse := reuse, scratchAllocated := !reuse,
          recoveryAttempted := attempted.isSome, recoveryNeedValidate := attempted,
          backendCalled := true, persistOffset := some c_offset, readvArgs := none })

/-- Mirror of `BlobCache::entry_read` (lines 179-258).  Destination buffers are
modelled by their capacities.  Fast path: positional scatter-read at
`offset + decompress_offset` for up to `size` bytes.  Otherwise a `d_size`
scratch is prepared (aliased to the single whole-chunk destination when the
reuse guard holds), cache recovery is attempted unless the compressor is the
streaming family and the entry is not ready, with
`need_validate = !is_ready || validate`, and on recovery failure or skip the
backend-miss arm runs.  Copy-out returns `d_size` under reuse, else the `copyv`
count. -/
def entry_read (cfg : Config) (env : IoEnv) (entry : BlobCacheEntry)
    (bufs : List Nat) (offset size : Nat) :
    Option (Except ErrKind Nat × BlobCacheEntry × ReadTrace) :=
  if fast_cond cfg entry then
    some (Except.ok (readvCount bufs size), entry,
      { fastPath := true, reuse := false, scratchAllocated := false,
        recoveryAttempted := false, recoveryNeedValidate := none,
        backendCalled := false, persistOffset := none,
        readvArgs := some (entry.fd, offset + entry.chunk.decompress_offset, size) })
  else
    let d_size := entry.chunk.decompress_size
    let reuse := reuse_cond cfg bufs d_size offset
    let need_validate : Bool := !entry.is_ready || cfg.validate
    if recovery_cond cfg entry then
      match read_blobcache_chunk cfg env entry.fd entry.chunk d_size need_validate with
      | Except.ok _ =>
        some (copy_out reuse d_size bufs offset size, entry,
          { fastPath := false, reuse := reuse, scratchAllocated := !reuse,
            recoveryAttempted := true, recoveryNeedValidate := some need_validate,
            backendCalled := false, persistOffset := none, readvArgs := none })
      | Except.error _ =>
        entry_read_miss cfg env entry bufs offset size reuse (some need_validate)
    else
      entry_read_miss cfg env entry bufs offset size reuse none

/-! Helper lemmas about the persist loop and the copy-out step. -/

theorem cacheWrite_error_eq {rs : List PwriteResult} {e e2 : BlobCacheEntry} {k : ErrKind}
    (h : cacheWrite rs e = some (Except.error k, e2)) :
    k ≠ ErrKind.Interrupted ∧ e2 = e := by
  induction rs with
  | nil => simp [cacheWrite] at h
  | cons r rest ih =>
    cases r with
    | ok n => simp [cacheWrite] at h
    | err k2 =>
      by_cases hk : k2 = ErrKind.Interrupted
      · rw [cacheWrite, if_pos hk] at h
        exact ih h
      · rw [cacheWrite, if_neg hk] at h
        simp only [Option.some.injEq, Prod.mk.injEq, Except.error.injEq] at h
        exact ⟨h.1 ▸ hk, h.2.symm⟩

theorem cacheWrite_ok_eq {rs : List PwriteResult} {e e2 : BlobCacheEntry} {u : Unit}
    (h : cacheWrite rs e = some (Except.ok u, e2)) :
    e2 = e.set_ready := by
  induction rs with
  | nil => simp [cacheWrite] at h
  | cons r rest ih =>
    cases r with
    | ok n =>
      simp only [cacheWrite, Option.some.injEq, Prod.mk.injEq] at h
      exact h.2.symm
    | err k2 =>
      by_cases hk : k2 = ErrKind.Interrupted
      · rw [cacheWrite, if_pos hk] at h
        exact ih h
      · rw [cacheWrite, if_neg hk] at h
        simp at h

theorem copyv_ok_le {srcLen : Nat} {bufs : List Nat} {offset size n : Nat}
    (h : copyv srcLen bufs offset size = Except.ok n) : n ≤ size := by
  unfold copyv at h
  split at h
  · exact absurd h (by simp)
  · simp only [Except.ok.injEq] at h
    omega

theorem copyv_ok_of_le {srcLen : Nat} (bufs : List Nat) (offset size : Nat)
    (h : offset ≤ srcLen) :
    copyv srcLen bufs offset size = Except.ok (min size (min (srcLen - offset) bufs.sum)) := by
  unfold copyv
  rw [if_neg (by omega)]

theorem copy_out_ok_le {reuse : Bool} {d_size : Nat} {bufs : List Nat} {offset size n : Nat}
    (h : copy_out reuse d_size bufs offset size = Except.ok n) : n ≤ max size d_size := by
  unfold copy_out at h
  split at h
  · simp only [Except.ok.injEq] at h
    omega
  · exact le_trans (copyv_ok_le h) (le_max_left _ _)

theorem readvCount_le (bufs : List Nat) (maxSize : Nat) : readvCount bufs maxSize ≤ maxSize :=
  Nat.min_le_left _ _

theorem copy_out_ok_exists (reuse : Bool) (d : Nat) (bufs : List Nat) (offset size : Nat)
    (h : offset ≤ d) : ∃ n, copy_out reuse d bufs offset size = Except.ok n := by
  cases reuse
  · exact ⟨_, copyv_ok_of_le bufs offset size h⟩
  · exact ⟨d, rfl⟩

theorem isOkE_false_exists {α : Type} {r : Except ErrKind α} (h : isOkE r = false) :
    ∃ k, r = Except.error k := by
  cases r with
  | ok a => simp [isOkE] at h
  | error k => exact ⟨k, rfl⟩

/-! Structural lemmas describing the traces `entry_read` can produce. -/

theorem entry_read_miss_trace {cfg : Config} {env : IoEnv} {e : BlobCacheEntry}
    {bufs : List Nat} {offset size : Nat} {reuse : Bool} {att : Option Bool}
    {r : Except ErrKind Nat} {e2 : BlobCacheEntry} {tr : ReadTrace}
    (h : entry_read_miss cfg env e bufs offset size reuse att = some (r, e2, tr)) :
    tr.fastPath = false ∧ tr.recoveryAttempted = att.isSome
      ∧ tr.recoveryNeedValidate = att ∧ tr.backendCalled = true := by
  simp only [entry_read_miss] at h
  split at h
  · simp only [Option.some.injEq, Prod.mk.injEq] at h
    rw [← h.2.2]
    exact ⟨rfl, rfl, rfl, rfl⟩
  · split at h
    · exact absurd h (by simp)
    · simp only [Option.some.injEq, Prod.mk.injEq] at h
      rw [← h.2.2]
      exact ⟨rfl, rfl, rfl, rfl⟩

theorem entry_read_trace_spec {cfg : Config} {env : IoEnv} {e : BlobCacheEntry}
    {bufs : List Nat} {offset size : Nat}
    {r : Except ErrKind Nat} {e2 : BlobCacheEntry} {tr : ReadTrace}
    (h : entry_read cfg env e bufs offset size = some (r, e2, tr)) :
    tr.fastPath = fast_cond cfg e
      ∧ tr.recoveryAttempted = (!(fast_cond cfg e) && recovery_cond cfg e)
      ∧ (tr.recoveryAttempted = true →
          tr.recoveryNeedValidate = some (!e.is_ready || cfg.validate))
      ∧ tr.backendCalled = (!(fast_cond cfg e) &&
          (!(recovery_cond cfg e) ||
            !(isOkE (read_blobcache_chunk cfg env e.fd e.chunk e.chunk.decompress_size
                (!e.is_ready || cfg.validate))))) := by
  by_cases hf : fast_cond cfg e = true
  · rw [entry_read, if_pos hf] at h
    simp only [Option.some.injEq, Prod.mk.injEq] at h
    rw [← h.2.2, hf]
    exact ⟨rfl, rfl, by intro hc; exact absurd hc (by simp), rfl⟩
  · have hf2 : fast_cond cfg e = false := by rwa [Bool.not_eq_true] at hf
    rw [entry_read, if_neg hf] at h
    by_cases hrc : recovery_cond cfg e = true
    · rw [if_pos hrc] at h
      split at h
      · rename_i u heq
        simp only [Option.some.injEq, Prod.mk.injEq] at h
        rw [← h.2.2, hf2, hrc, heq]
        exact ⟨rfl, rfl, fun _ => rfl, rfl⟩
      · rename_i k heq
        obtain ⟨h1, h2, h3, h4⟩ := entry_read_miss_trace h
        rw [h1, h2, h3, h4, hf2, hrc, heq]
        exact ⟨rfl, rfl, fun _ => rfl, rfl⟩
    · have hrc2 : recovery_cond cfg e = false := by rwa [Bool.not_eq_true] at hrc
      rw [if_neg hrc] at h
      obtain ⟨h1, h2, h3, h4⟩ := entry_read_miss_trace h
      rw [h1, h2, h3, h4, hf2, hrc2]
      exact ⟨rfl, rfl, by intro hc; exact absurd hc (by simp), rfl⟩

theorem fast_cond_iff (cfg : Config) (e : BlobCacheEntry) :
    fast_cond cfg e = true ↔
      cfg.is_compressed = false ∧ cfg.validate = false ∧ e.is_ready = true := by
  simp [fast_cond, Bool.and_eq_true, Bool.not_eq_true', and_assoc]

theorem recovery_cond_iff (cfg : Config) (e : BlobCacheEntry) :
    recovery_cond cfg e = true ↔
      ¬(cfg.compressor = Algorithm.GZip ∧ e.is_ready = false) := by
  simp only [recovery_cond, Bool.or_eq_true, Bool.not_eq_true', beq_eq_false_iff_ne, ne_eq]
  constructor
  · rintro (hne | hr) ⟨hgz, hnr⟩
    · exact hne hgz
    · rw [hr] at hnr
      exact absurd hnr (by simp)
  · intro hc
    by_cases hgz : cfg.compressor = Algorithm.GZip
    · right
      rcases hr : e.is_ready with _ | _
      · exact absurd ⟨hgz, hr⟩ hc
      · rfl
    · exact Or.inl hgz

/-! Concrete fixtures used by counterexamples and witnesses. -/

/-- Uncompressed cache, validation disabled, non-streaming compressor. -/
def cfg_u : Config :=
  { is_compressed := false, validate := false, compressor := Algorithm.LZ4Block }

/-- A chunk of decompressed size 100 at decompressed offset 0. -/
def chunk_u : ChunkInfo :=
  { block_id := 7, compress_offset := 0, compress_size := 60,
    decompress_offset := 0, decompress_size := 100 }

/-- A not-ready entry for `chunk_u` on fd 5. -/
def ent_u : BlobCacheEntry := { status := CacheStatus.NotReady, chunk := chunk_u, fd := 5 }

/-- A ready entry for `chunk_u` on fd 5. -/
def ent_u_ready : BlobCacheEntry := { status := CacheStatus.Ready, chunk := chunk_u, fd := 5 }

/-- Environment in which every collaborator succeeds: `pread` reads full length,
decompression and validation pass, the backend fetch succeeds, and the first
`pwrite` completes. -/
def env_all_ok : IoEnv :=
  { pread := fun _ len _ => Except.ok len,
    dupSeek := fun _ _ => Except.ok (),
    processRaw := fun _ _ => Except.ok (),
    backendFetch := Except.ok (),
    pwrites := [PwriteResult.ok 100] }

/-- Environment in which the cache-file read fails (cold local file), the
backend fetch succeeds, and the persist `pwrite` reports a non-EINTR error. -/
def env_persist_fail : IoEnv :=
  { pread := fun _ _ _ => Except.error ErrKind.IoOther,
    dupSeek := fun _ _ => Except.error ErrKind.IoOther,
    processRaw := fun _ _ => Except.ok (),
    backendFetch := Except.ok (),
    pwrites := [PwriteResult.err ErrKind.IoOther] }

/-- The trace of a recovered whole-chunk buffer-reuse read of `ent_u`. -/
def trace_reuse_recovered : ReadTrace :=
  { fastPath := false, reuse := true, scratchAllocated := false,
    recoveryAttempted := true, recoveryNeedValidate := some true,
    backendCalled := false, persistOffset := none, readvArgs := none }

/-- Projects the byte count out of a successful `entry_read` outcome. -/
def read_result_bytes (r : Option (Except ErrKind Nat × BlobCacheEntry × ReadTrace)) :
    Option Nat :=
  match r with
  | some (Except.ok n, _, _) => some n
  | _ => none

/-! Claim C1 -/

/-- C1, counterexample: with `bio.size = 10` but a single destination buffer of
capacity 100 covering the whole 100-byte chunk at in-chunk offset 0, a
successful `entry_read` (entry not ready, recovery succeeds) takes the
buffer-reuse path and returns 100 bytes, which exceeds `bio.size = 10`.  So a
successful read is not bounded by `bio.size`. -/
theorem claim_C1_cex :
    read_result_bytes (entry_read cfg_u env_all_ok ent_u [100] 0 10) = some 100
      ∧ ¬(100 ≤ 10) := by
  constructor
  · rfl
  · decide

/-- C1, amended: for every successful `entry_read`, the number of bytes returned
is at most `max size decompress_size`: on the fast path and the gather-copy
path it is at most `size`, while on the whole-chunk buffer-reuse path it is
exactly `decompress_size`, which may exceed `size`. -/
theorem claim_C1_thm (cfg : Config) (env : IoEnv) (e : BlobCacheEntry)
    (bufs : List Nat) (offset size n : Nat) (e2 : BlobCacheEntry) (tr : ReadTrace)
    (h : entry_read cfg env e bufs offset size = some (Except.ok n, e2, tr)) :
    n ≤ max size e.chunk.decompress_size := by
  by_cases hf : fast_cond cfg e = true
  · rw [entry_read, if_pos hf] at h
    simp only [Option.some.injEq, Prod.mk.injEq, Except.ok.injEq] at h
    exact le_trans (h.1 ▸ readvCount_le bufs size) (le_max_left _ _)
  · rw [entry_read, if_neg hf] at h
    have hmiss : ∀ reuse att,
        entry_read_miss cfg env e bufs offset size reuse att =
          some (Except.ok n, e2, tr) → n ≤ max size e.chunk.decompress_size := by
      intro reuse att hm
      simp only [entry_read_miss] at hm
      split at hm
      · simp at hm
      · split at hm
        · exact absurd hm (by simp)
        · simp only [Option.some.injEq, Prod.mk.injEq] at hm
          exact copy_out_ok_le hm.1
    by_cases hrc : recovery_cond cfg e = true
    · rw [if_pos hrc] at h
      split at h
      · simp only [Option.some.injEq, Prod.mk.injEq] at h
        exact copy_out_ok_le h.1
      · exact hmiss _ _ h
    · rw [if_neg hrc] at h
      exact hmiss _ _ h

/-- C1 witness: the amended bound applied at the counterexample input. -/
theorem claim_C1_wit : (100 : Nat) ≤ max 10 ent_u.chunk.decompress_size :=
  claim_C1_thm cfg_u env_all_ok ent_u [100] 0 10 100 ent_u trace_reuse_recovered rfl

/-! Claim C2 -/

/-- C2: on the backend-miss path of `entry_read` (entry not ready, recovery
skipped or failed), when the backend fetch succeeds but the persist step
reports an error, the read still succeeds with the copied-out bytes, the
returned entry is unchanged, and its readiness is not set. -/
theorem claim_C2_thm (cfg : Config) (env : IoEnv) (e : BlobCacheEntry)
    (bufs : List Nat) (offset size : Nat) (k : ErrKind) (e2 : BlobCacheEntry)
    (hnr : e.status = CacheStatus.NotReady)
    (hrec : isOkE (read_blobcache_chunk cfg env e.fd e.chunk e.chunk.decompress_size
        (!e.is_ready || cfg.validate)) = false ∨ recovery_cond cfg e = false)
    (hb : env.backendFetch = Except.ok ())
    (hw : cacheWrite env.pwrites e = some (Except.error k, e2))
    (hoff : offset ≤ e.chunk.decompress_size) :
    ∃ n tr, entry_read cfg env e bufs offset size = some (Except.ok n, e, tr)
      ∧ e.status = CacheStatus.NotReady ∧ tr.backendCalled = true := by
  have hready : e.is_ready = false := by
    unfold BlobCacheEntry.is_ready
    rw [hnr]
  have hf : fast_cond cfg e = false := by
    unfold fast_cond
    rw [hready]
    simp
  have he2 : e2 = e := (cacheWrite_error_eq hw).2
  have hmiss : ∀ att, ∃ n tr,
      entry_read_miss cfg env e bufs offset size
          (reuse_cond cfg bufs e.chunk.decompress_size offset) att =
        some (Except.ok n, e, tr) ∧ tr.backendCalled = true := by
    intro att
    obtain ⟨n, hco⟩ := copy_out_ok_exists (reuse_cond cfg bufs e.chunk.decompress_size offset)
      e.chunk.decompress_size bufs offset size hoff
    refine ⟨n,
      { fastPath := false, reuse := reuse_cond cfg bufs e.chunk.decompress_size offset,
        scratchAllocated := !(reuse_cond cfg bufs e.chunk.decompress_size offset),
        recoveryAttempted := att.isSome, recoveryNeedValidate := att,
        backendCalled := true,
        persistOffset := some (if cfg.is_compressed then e.chunk.compress_offset
          else e.chunk.decompress_offset),
        readvArgs := none }, ?_, rfl⟩
    simp only [entry_read_miss, hb, hw, he2, hco]
  rw [entry_read, if_neg (by rw [hf]; simp)]
  rcases hrec with hrec | hrec
  · by_cases hrc : recovery_cond cfg e = true
    · rw [if_pos hrc]
      obtain ⟨krd, hrd⟩ := isOkE_false_exists hrec
      rw [hrd]
      obtain ⟨n, tr, hm, hbc⟩ := hmiss (some (!e.is_ready || cfg.validate))
      exact ⟨n, tr, hm, hnr, hbc⟩
    · rw [if_neg hrc]
      obtain ⟨n, tr, hm, hbc⟩ := hmiss none
      exact ⟨n, tr, hm, hnr, hbc⟩
  · rw [if_neg (by rw [hrec]; simp)]
    obtain ⟨n, tr, hm, hbc⟩ := hmiss none
    exact ⟨n, tr, hm, hnr, hbc⟩

/-- C2 witness: a concrete cold-cache read whose persist write fails with a
non-EINTR error still succeeds and leaves the entry not ready. -/
theorem claim_C2_wit :
    ∃ n tr, entry_read cfg_u env_persist_fail ent_u [100] 0 10 = some (Except.ok n, ent_u, tr)
      ∧ ent_u.status = CacheStatus.NotReady ∧ tr.backendCalled = true :=
  claim_C2_thm cfg_u env_persist_fail ent_u [100] 0 10 ErrKind.IoOther ent_u
    rfl (Or.inl rfl) rfl rfl (by decide)

/-! Claim C5 -/

/-- C5: `entry_read` takes the fast path exactly when the cache stores
decompressed data, validation is disabled and the entry is Ready; on that path
it performs a positional scatter-read from the entry's fd at absolute offset
`decompress_offset + offset_in_chunk` for up to `size` bytes and returns the
bytes read, without calling the backend and without allocating a scratch
buffer. -/
theorem claim_C5_thm (cfg : Config) (env : IoEnv) (e : BlobCacheEntry)
    (bufs : List Nat) (offset size : Nat) :
    (cfg.is_compressed = false ∧ cfg.validate = false ∧ e.is_ready = true →
      entry_read cfg env e bufs offset size =
        some (Except.ok (readvCount bufs size), e,
          { fastPath := true, reuse := false, scratchAllocated := false,
            recoveryAttempted := false, recoveryNeedValidate := none,
            backendCalled := false, persistOffset := none,
            readvArgs := some (e.fd, offset + e.chunk.decompress_offset, size) }))
    ∧ (∀ r e2 tr, entry_read cfg env e bufs offset size = some (r, e2, tr) →
        (tr.fastPath = true ↔
          cfg.is_compressed = false ∧ cfg.validate = false ∧ e.is_ready = true)) := by
  constructor
  · intro hc
    rw [entry_read, if_pos ((fast_cond_iff cfg e).mpr hc)]
  · intro r e2 tr h
    rw [(entry_read_trace_spec h).1]
    exact fast_cond_iff cfg e

/-- C5 witness: a concrete ready entry with validation off and an uncompressed
cache takes the fast path with the scatter-read at the expected offset. -/
theorem claim_C5_wit :
    entry_read cfg_u env_all_ok ent_u_ready [50] 3 10 =
      some (Except.ok (readvCount [50] 10), ent_u_ready,
        { fastPath := true, reuse := false, scratchAllocated := false,
          recoveryAttempted := false, recoveryNeedValidate := none,
          backendCalled := false, persistOffset := none,
          readvArgs := some (ent_u_ready.fd, 3 + ent_u_ready.chunk.decompress_offset, 10) }) :=
  (claim_C5_thm cfg_u env_all_ok ent_u_ready [50] 3 10).1 ⟨rfl, rfl, rfl⟩

/-! Claim C6 -/

/-- C6: off the fast path, the cache-recovery attempt is made if and only if it
is not the case that the compressor is the streaming (GZip) family and the
entry is NotReady; when made it passes `need_validate = (NotReady ∨ validation
enabled)`; and the backend fetch happens if and only if recovery was skipped or
the recovery read failed. -/
theorem claim_C6_thm (cfg : Config) (env : IoEnv) (e : BlobCacheEntry)
    (bufs : List Nat) (offset size : Nat)
    (hfast : fast_cond cfg e = false) :
    ∀ r e2 tr, entry_read cfg env e bufs offset size = some (r, e2, tr) →
      (tr.recoveryAttempted = true ↔
        ¬(cfg.compressor = Algorithm.GZip ∧ e.is_ready = false))
      ∧ (tr.recoveryAttempted = true →
          tr.recoveryNeedValidate = some (!e.is_ready || cfg.validate))
      ∧ (tr.backendCalled = true ↔
          (tr.recoveryAttempted = false ∨
            isOkE (read_blobcache_chunk cfg env e.fd e.chunk e.chunk.decompress_size
              (!e.is_ready || cfg.validate)) = false)) := by
  intro r e2 tr h
  obtain ⟨h1, h2, h3, h4⟩ := entry_read_trace_spec h
  rw [hfast] at h2 h4
  simp only [Bool.not_false, Bool.true_and] at h2 h4
  refine ⟨?_, h3, ?_⟩
  · rw [h2]
    exact recovery_cond_iff cfg e
  · rw [h4, h2]
    cases hrc : recovery_cond cfg e <;>
      cases hok : isOkE (read_blobcache_chunk cfg env e.fd e.chunk e.chunk.decompress_size
        (!e.is_ready || cfg.validate)) <;> simp

/-- C6 witness: for a concrete not-ready entry with a non-streaming compressor,
recovery is attempted with `need_validate = true` and, the recovery read having
succeeded, the backend is not fetched. -/
theorem claim_C6_wit :
    (trace_reuse_recovered.recoveryAttempted = true ↔
      ¬(cfg_u.compressor = Algorithm.GZip ∧ ent_u.is_ready = false))
    ∧ (trace_reuse_recovered.recoveryAttempted = true →
        trace_reuse_recovered.recoveryNeedValidate = some (!ent_u.is_ready || cfg_u.validate))
    ∧ (trace_reuse_recovered.backendCalled = true ↔
        (trace_reuse_recovered.recoveryAttempted = false ∨
          isOkE (read_blobcache_chunk cfg_u env_all_ok ent_u.fd ent_u.chunk
            ent_u.chunk.decompress_size (!ent_u.is_ready || cfg_u.validate)) = false)) :=
  claim_C6_thm cfg_u env_all_ok ent_u [100] 0 10 rfl
    (Except.ok 100) ent_u trace_reuse_recovered rfl

/-! Claim C7 -/

/-- C7: `entry.cache` retries the positional write whenever the reported error
kind is `Interrupted` (EINTR is never surfaced to the caller), returns any
other error kind with the entry unchanged (still NotReady if it was NotReady),
and on a completed write sets the entry's status to Ready before returning
success. -/
theorem claim_C7_thm (rs : List PwriteResult) (e : BlobCacheEntry) :
    cacheWrite (PwriteResult.err ErrKind.Interrupted :: rs) e = cacheWrite rs e
    ∧ (∀ k e2, cacheWrite rs e = some (Except.error k, e2) →
        k ≠ ErrKind.Interrupted ∧ e2 = e)
    ∧ (∀ u e2, cacheWrite rs e = some (Except.ok u, e2) →
        e2.status = CacheStatus.Ready) := by
  refine ⟨by simp [cacheWrite], fun k e2 h => cacheWrite_error_eq h, fun u e2 h => ?_⟩
  rw [cacheWrite_ok_eq h]
  rfl

/-- C7 witness: a first write reporting a non-EINTR error surfaces it with the
entry unchanged, and a first write completing sets the status to Ready. -/
theorem claim_C7_wit :
    (ErrKind.IoOther ≠ ErrKind.Interrupted ∧ ent_u = ent_u)
    ∧ (BlobCacheEntry.set_ready ent_u).status = CacheStatus.Ready :=
  ⟨(claim_C7_thm [PwriteResult.err ErrKind.IoOther] ent_u).2.1 ErrKind.IoOther ent_u rfl,
    (claim_C7_thm [PwriteResult.ok 4] ent_u).2.2 () ent_u.set_ready rfl⟩

/-! The cache state table (`struct BlobCacheState`, lines 100-159). -/

/-- Association-list lookup, modelling `HashMap::get`. -/
def alookup {α β : Type} [DecidableEq α] : List (α × β) → α → Option β
  | [], _ => none
  | (k, v) :: rest, d => if k = d then some v else alookup rest d

/-- Mirror of `struct BlobCacheState` (lines 100-106).  `chunk_map` maps a chunk
digest to an entry identifier and `entries` is the store of shared entries
(modelling the `Arc<Mutex<BlobCacheEntry>>` heap), so that distinct descriptors
with one digest can share one mutable entry record.  `file_map` maps a blob id
to its open `(fd, size)`.  The ghost fields `opened` (fd to the file path passed
to `OpenOptions::open`), `next_id` and `next_fd` make entry identity and fd
allocation explicit. -/
structure CacheState where
  chunk_map : List (Nat × Nat)
  file_map : List (String × (Nat × Nat))
  work_dir : String
  backend_size_valid : Bool
  entries : Nat → Option BlobCacheEntry
  opened : List (Nat × String)
  next_id : Nat
  next_fd : Nat

/-- Collaborator outcomes for the state table: whether `OpenOptions::open`
succeeds for the blob file of a given blob id, and the backend's
`blob_size` answer. -/
structure TableEnv where
  openOk : String → Bool
  blobSize : String → Except ErrKind Nat

/-- Mirror of `BlobCacheState::get_blob_fd` (lines 109-135): memoized open of
`{work_dir}/{blob_id}` with create-if-absent; the size is queried from the
backend only when `backend_size_valid`, else recorded as 0. -/
def get_blob_fd (tenv : TableEnv) (s : CacheState) (blob_id : String) :
    Except ErrKind ((Nat × Nat) × CacheState) :=
  match alookup s.file_map blob_id with
  | some fdsz => Except.ok (fdsz, s)
  | none =>
    if tenv.openOk blob_id then
      match (if s.backend_size_valid then tenv.blobSize blob_id else Except.ok 0) with
      | Except.error k => Except.error k
      | Except.ok size =>
        Except.ok ((s.next_fd, size),
          { s with file_map := (blob_id, (s.next_fd, size)) :: s.file_map,
                   opened := (s.next_fd, s.work_dir ++ "/" ++ blob_id) :: s.opened,
                   next_fd := s.next_fd + 1 })
    else Except.error ErrKind.IoOther

/-- Mirror of `BlobCacheState::get` (lines 137-140): shared-lock lookup of the
entry for a digest. -/
def cstate_get (s : CacheState) (cki : ChunkInfo) : Option Nat :=
  alookup s.chunk_map cki.block_id

/-- Mirror of `BlobCacheState::set` (lines 142-158): double-checked get-or-insert.
If the digest already has an entry, that entry is returned and the state is
unchanged; otherwise the blob file handle for `blob_id` is acquired and a fresh
NotReady entry referencing that fd is inserted under the digest. -/
def cstate_set (tenv : TableEnv) (s : CacheState) (blob_id : String) (cki : ChunkInfo) :
    Except ErrKind (Nat × CacheState) :=
  match alookup s.chunk_map cki.block_id with
  | some eid => Except.ok (eid, s)
  | none =>
    match get_blob_fd tenv s blob_id with
    | Except.error k => Except.error k
    | Except.ok (fdsz, s1) =>
      Except.ok (s1.next_id,
        { s1 with
          entries := fun j => if j = s1.next_id then
            some { status := CacheStatus.NotReady, chunk := cki, fd := fdsz.1 }
            else s1.entries j,
          chunk_map := (cki.block_id, s1.next_id) :: s1.chunk_map,
          next_id := s1.next_id + 1 })

/-- Mirror of `RafsCache::evict` (lines 476-485): drops the digest's row from
the chunk map; entry records and on-disk contents are untouched. -/
def cstate_remove (s : CacheState) (digest : Nat) : CacheState :=
  { s with chunk_map := s.chunk_map.filter (fun p => decide (p.1 ≠ digest)) }

/-- Writes back the shared entry record `eid` (mutation through the
`Arc<Mutex<..>>`). -/
def update_entry (s : CacheState) (eid : Nat) (e : BlobCacheEntry) : CacheState :=
  { s with entries := fun j => if j = eid then some e else s.entries j }

/-- The operations that mutate the cache state table: get-or-insert (from `read`
or a prefetch worker), evict, and the outcome of a persist (`entry.cache`) on an
entry, which sets the entry Ready exactly when the write succeeded. -/
inductive CacheOp
  | opSet (blob_id : String) (cki : ChunkInfo)
  | opEvict (digest : Nat)
  | opPersist (eid : Nat) (ok : Bool)

/-- One step of the cache state table.  A failed `set` (file open or size query
error) leaves the state unchanged; a failed persist leaves the entry's status
unchanged. -/
def applyOp (tenv : TableEnv) (s : CacheState) : CacheOp → CacheState
  | CacheOp.opSet blob_id cki =>
    match cstate_set tenv s blob_id cki with
    | Except.ok p => p.2
    | Except.error _ => s
  | CacheOp.opEvict d => cstate_remove s d
  | CacheOp.opPersist eid ok =>
    if ok then
      match s.entries eid with
      | some e => update_entry s eid e.set_ready
      | none => s
    else s

/-- The empty state the constructor `new` builds (lines 620-626). -/
def init_state (wd : String) (bsv : Bool) : CacheState :=
  { chunk_map := [], file_map := [], work_dir := wd, backend_size_valid := bsv,
    entries := fun _ => none, opened := [], next_id := 0, next_fd := 0 }

/-- A reachable cache state: the fold of a sequence of operations from the
initial state. -/
def runOps (tenv : TableEnv) (wd : String) (bsv : Bool) (ops : List CacheOp) : CacheState :=
  ops.foldl (applyOp tenv) (init_state wd bsv)

/-! Lookup and state-table lemmas. -/

theorem alookup_eq_none {α β : Type} [DecidableEq α] {l : List (α × β)} {k : α} :
    alookup l k = none ↔ k ∉ l.map Prod.fst := by
  induction l with
  | nil => simp [alookup]
  | cons p rest ih =>
    obtain ⟨a, b⟩ := p
    by_cases h : a = k
    · subst h
      rw [alookup, if_pos rfl]
      simp
    · rw [alookup, if_neg h]
      simp only [List.map_cons, List.mem_cons, ih]
      constructor
      · intro hn hm
        rcases hm with hm | hm
        · exact h hm.symm
        · exact hn hm
      · intro hn hm
        exact hn (Or.inr hm)

theorem alookup_mem {α β : Type} [DecidableEq α] {l : List (α × β)} {k : α} {v : β}
    (h : alookup l k = some v) : (k, v) ∈ l := by
  induction l with
  | nil => simp [alookup] at h
  | cons p rest ih =>
    obtain ⟨a, b⟩ := p
    by_cases ha : a = k
    · subst ha
      rw [alookup, if_pos rfl] at h
      simp only [Option.some.injEq] at h
      subst h
      exact List.mem_cons_self _ _
    · rw [alookup, if_neg ha] at h
      exact List.mem_cons_of_mem _ (ih h)

theorem get_blob_fd_ok_state {tenv : TableEnv} {s : CacheState} {b : String}
    {fdsz : Nat × Nat} {s1 : CacheState}
    (h : get_blob_fd tenv s b = Except.ok (fdsz, s1)) :
    s1.chunk_map = s.chunk_map ∧ s1.entries = s.entries ∧ s1.next_id = s.next_id
      ∧ s1.backend_size_valid = s.backend_size_valid ∧ s1.work_dir = s.work_dir := by
  unfold get_blob_fd at h
  split at h
  · simp only [Except.ok.injEq, Prod.mk.injEq] at h
    rw [← h.2]
    exact ⟨rfl, rfl, rfl, rfl, rfl⟩
  · split at h
    · split at h
      · exact absurd h (by simp)
      · simp only [Except.ok.injEq, Prod.mk.injEq] at h
        rw [← h.2]
        exact ⟨rfl, rfl, rfl, rfl, rfl⟩
    · exact absurd h (by simp)

theorem cstate_set_cases {tenv : TableEnv} {s : CacheState} {b : String} {cki : ChunkInfo}
    {eid : Nat} {s1 : CacheState}
    (h : cstate_set tenv s b cki = Except.ok (eid, s1)) :
    (alookup s.chunk_map cki.block_id = some eid ∧ s1 = s)
    ∨ (alookup s.chunk_map cki.block_id = none ∧ ∃ fdsz s0,
        get_blob_fd tenv s b = Except.ok (fdsz, s0) ∧ eid = s0.next_id ∧
        s1 = { s0 with
          entries := fun j => if j = s0.next_id then
            some { status := CacheStatus.NotReady, chunk := cki, fd := fdsz.1 }
            else s0.entries j,
          chunk_map := (cki.block_id, s0.next_id) :: s0.chunk_map,
          next_id := s0.next_id + 1 }) := by
  unfold cstate_set at h
  split at h
  · rename_i eid2 heq
    simp only [Except.ok.injEq, Prod.mk.injEq] at h
    left
    rw [← h.1, ← h.2]
    exact ⟨heq, rfl⟩
  · rename_i heq
    right
    refine ⟨heq, ?_⟩
    split at h
    · exact absurd h (by simp)
    · rename_i fdsz s0 hfd
      simp only [Except.ok.injEq, Prod.mk.injEq] at h
      exact ⟨fdsz, s0, hfd, h.1.symm, h.2.symm⟩

/-- Well-formedness of a cache state: chunk-map keys are distinct, every live
entry id and every entry id referenced by the chunk map is below `next_id`. -/
structure StateWF (s : CacheState) : Prop where
  cm_nodup : (s.chunk_map.map Prod.fst).Nodup
  ent_lt : ∀ j e, s.entries j = some e → j < s.next_id
  cm_lt : ∀ p ∈ s.chunk_map, p.2 < s.next_id

theorem stateWF_init (wd : String) (bsv : Bool) : StateWF (init_state wd bsv) := by
  refine ⟨List.nodup_nil, ?_, ?_⟩
  · intro j e h
    exact absurd h (by simp [init_state])
  · intro p hp
    exact absurd hp (by simp [init_state])

theorem stateWF_set {tenv : TableEnv} {s : CacheState} {b : String} {cki : ChunkInfo}
    {eid : Nat} {s1 : CacheState} (hwf : StateWF s)
    (h : cstate_set tenv s b cki = Except.ok (eid, s1)) : StateWF s1 := by
  rcases cstate_set_cases h with ⟨_, rfl⟩ | ⟨hnone, fdsz, s0, hfd, heid, rfl⟩
  · exact hwf
  · obtain ⟨hcm, hent, hnid, _, _⟩ := get_blob_fd_ok_state hfd
    refine ⟨?_, ?_, ?_⟩
    · simp only [List.map_cons, hcm]
      exact List.Nodup.cons (by rw [← alookup_eq_none]; exact hnone) hwf.cm_nodup
    · intro j e hj
      show j < s0.next_id + 1
      simp only at hj
      split at hj
      · omega
      · rw [hent] at hj
        have := hwf.ent_lt j e hj
        omega
    · intro p hp
      show p.2 < s0.next_id + 1
      simp only [List.mem_cons, hcm] at hp
      rcases hp with rfl | hp
      · simp
      · have := hwf.cm_lt p hp
        omega

theorem stateWF_applyOp {tenv : TableEnv} {s : CacheState} (op : CacheOp)
    (hwf : StateWF s) : StateWF (applyOp tenv s op) := by
  cases op with
  | opSet b cki =>
    rw [applyOp]
    split
    · rename_i p hp
      obtain ⟨eid, s1⟩ := p
      exact stateWF_set hwf hp
    · exact hwf
  | opEvict d =>
    refine ⟨?_, hwf.ent_lt, ?_⟩
    · have hsub : ((cstate_remove s d).chunk_map.map Prod.fst).Sublist
          (s.chunk_map.map Prod.fst) :=
        List.Sublist.map Prod.fst (List.filter_sublist s.chunk_map)
      exact List.Nodup.sublist hsub hwf.cm_nodup
    · intro p hp
      exact hwf.cm_lt p (List.mem_of_mem_filter hp)
  | opPersist eid ok =>
    rw [applyOp]
    split
    · split
      · rename_i e he
        refine ⟨hwf.cm_nodup, ?_, hwf.cm_lt⟩
        intro j e2 hj
        simp only [update_entry] at hj
        split at hj
        · rename_i hje
          subst hje
          exact hwf.ent_lt j e he
        · exact hwf.ent_lt j e2 hj
      · exact hwf
    · exact hwf

theorem applyOp_ready_mono {tenv : TableEnv} {s : CacheState} (op : CacheOp)
    {eid : Nat} {e e2 : BlobCacheEntry} (hwf : StateWF s)
    (h1 : s.entries eid = some e) (h2 : (applyOp tenv s op).entries eid = some e2)
    (hr : e.status = CacheStatus.Ready) : e2.status = CacheStatus.Ready := by
  cases op with
  | opSet b cki =>
    rw [applyOp] at h2
    split at h2
    · rename_i p hp
      obtain ⟨eid2, s1⟩ := p
      rcases cstate_set_cases hp with ⟨_, hs⟩ | ⟨hnone, fdsz, s0, hfd, heid, hs⟩
      · rw [hs] at h2
        rw [h1] at h2
        simp only [Option.some.injEq] at h2
        rw [← h2]
        exact hr
      · obtain ⟨hcm, hent, hnid, _, _⟩ := get_blob_fd_ok_state hfd
        rw [hs] at h2
        simp only at h2
        split at h2
        · rename_i hje
          have hlt := hwf.ent_lt eid e h1
          have : False := by omega
          exact this.elim
        · rw [hent, h1] at h2
          simp only [Option.some.injEq] at h2
          rw [← h2]
          exact hr
    · rw [h1] at h2
      simp only [Option.some.injEq] at h2
      rw [← h2]
      exact hr
  | opEvict d =>
    rw [applyOp] at h2
    rw [show (cstate_remove s d).entries = s.entries from rfl, h1] at h2
    simp only [Option.some.injEq] at h2
    rw [← h2]
    exact hr
  | opPersist eid2 ok =>
    rw [applyOp] at h2
    split at h2
    · split at h2
      · rename_i e3 he3
        simp only [update_entry] at h2
        split at h2
        · simp only [Option.some.injEq] at h2
          rw [← h2]
          rfl
        · rw [h1] at h2
          simp only [Option.some.injEq] at h2
          rw [← h2]
          exact hr
      · rw [h1] at h2
        simp only [Option.some.injEq] at h2
        rw [← h2]
        exact hr
    · rw [h1] at h2
      simp only [Option.some.injEq] at h2
      rw [← h2]
      exact hr

theorem stateWF_runOps (tenv : TableEnv) (wd : String) (bsv : Bool) (ops : List CacheOp) :
    StateWF (runOps tenv wd bsv ops) := by
  suffices hgen : ∀ (l : List CacheOp) (s : CacheState), StateWF s →
      StateWF (l.foldl (applyOp tenv) s) by
    exact hgen ops (init_state wd bsv) (stateWF_init wd bsv)
  intro l
  induction l with
  | nil => intro s hs; exact hs
  | cons op rest ih =>
    intro s hs
    exact ih (applyOp tenv s op) (stateWF_applyOp op hs)

/-! Claims C9 and C3. -/

def tenv_ok : TableEnv := { openOk := fun _ => true, blobSize := fun _ => Except.ok 0 }

def chunkA : ChunkInfo :=
  { block_id := 7, compress_offset := 10, compress_size := 4,
    decompress_offset := 20, decompress_size := 4 }

def chunkB : ChunkInfo :=
  { block_id := 7, compress_offset := 30, compress_size := 4,
    decompress_offset := 40, decompress_size := 4 }

def chunkC : ChunkInfo :=
  { block_id := 9, compress_offset := 50, compress_size := 4,
    decompress_offset := 60, decompress_size := 4 }

/-- C9: for every reachable cache state, the chunk map holds at most one entry
per digest (its keys are distinct), get-or-insert returns the existing entry
unchanged under a repeated or concurrent insert of the same digest, and no
operation ever moves an entry's status from Ready back to NotReady. -/
theorem claim_C9_thm (tenv : TableEnv) (wd : String) (bsv : Bool) (ops : List CacheOp) :
    ((runOps tenv wd bsv ops).chunk_map.map Prod.fst).Nodup
    ∧ (∀ blob cki eid,
        alookup (runOps tenv wd bsv ops).chunk_map cki.block_id = some eid →
        cstate_set tenv (runOps tenv wd bsv ops) blob cki =
          Except.ok (eid, runOps tenv wd bsv ops))
    ∧ (∀ op eid e e2, (runOps tenv wd bsv ops).entries eid = some e →
        (applyOp tenv (runOps tenv wd bsv ops) op).entries eid = some e2 →
        e.status = CacheStatus.Ready → e2.status = CacheStatus.Ready) := by
  have hwf := stateWF_runOps tenv wd bsv ops
  refine ⟨hwf.cm_nodup, ?_, ?_⟩
  · intro blob cki eid h
    simp only [cstate_set, h]
  · intro op eid e e2 h1 h2 hr
    exact applyOp_ready_mono op hwf h1 h2 hr

def state_c9 : CacheState :=
  runOps tenv_ok "wd" false [CacheOp.opSet "A" chunkA, CacheOp.opPersist 0 true]

/-- C9 witness: after inserting a chunk under blob `A` and persisting it, a
repeated insert under blob `B` returns the same entry and leaves the state
unchanged, and a subsequent insert of a different digest leaves the first
entry Ready. -/
theorem claim_C9_wit :
    cstate_set tenv_ok state_c9 "B" chunkA = Except.ok (0, state_c9)
    ∧ ({ status := CacheStatus.Ready, chunk := chunkA, fd := 0 } : BlobCacheEntry).status
        = CacheStatus.Ready :=
  ⟨(claim_C9_thm tenv_ok "wd" false [CacheOp.opSet "A" chunkA, CacheOp.opPersist 0 true]).2.1
      "B" chunkA 0 rfl,
    (claim_C9_thm tenv_ok "wd" false [CacheOp.opSet "A" chunkA, CacheOp.opPersist 0 true]).2.2
      (CacheOp.opSet "B" chunkC) 0
      { status := CacheStatus.Ready, chunk := chunkA, fd := 0 }
      { status := CacheStatus.Ready, chunk := chunkA, fd := 0 } rfl rfl rfl⟩

/-- C3, amended: when digest D already has an entry created under blob-id A, a
subsequent get-or-insert of a same-digest descriptor under a different blob-id
B shares that same entry and leaves the state unchanged — so B's chunk data is
persisted through the shared entry's fd into A's blob cache file
(`{work_dir}/A`, the path recorded for that fd) at the shared entry's stored
descriptor offsets; `{work_dir}/B` is not opened, so nothing is written there. -/
theorem claim_C3_thm (tenv : TableEnv) (s : CacheState) (blobA blobB : String)
    (ckiA ckiB : ChunkInfo) (eid : Nat) (s1 : CacheState)
    (hdig : ckiB.block_id = ckiA.block_id)
    (hfreshD : alookup s.chunk_map ckiA.block_id = none)
    (hfreshF : alookup s.file_map blobA = none)
    (hopen : tenv.openOk blobA = true)
    (hbsv : s.backend_size_valid = false)
    (hAB : blobB ≠ blobA)
    (hset : cstate_set tenv s blobA ckiA = Except.ok (eid, s1)) :
    cstate_set tenv s1 blobB ckiB = Except.ok (eid, s1)
    ∧ s1.entries eid = some { status := CacheStatus.NotReady, chunk := ckiA, fd := s.next_fd }
    ∧ alookup s1.opened s.next_fd = some (s.work_dir ++ "/" ++ blobA)
    ∧ alookup s1.file_map blobB = alookup s.file_map blobB := by
  have hfd : get_blob_fd tenv s blobA = Except.ok ((s.next_fd, 0),
      { s with file_map := (blobA, (s.next_fd, 0)) :: s.file_map,
               opened := (s.next_fd, s.work_dir ++ "/" ++ blobA) :: s.opened,
               next_fd := s.next_fd + 1 }) := by
    simp [get_blob_fd, hfreshF, hopen, hbsv]
  simp only [cstate_set, hfreshD, hfd] at hset
  simp only [Except.ok.injEq, Prod.mk.injEq] at hset
  obtain ⟨heid, hs1⟩ := hset
  subst heid
  rw [← hs1]
  refine ⟨?_, ?_, ?_, ?_⟩
  · simp [cstate_set, alookup, hdig]
  · simp
  · simp [alookup]
  · simp [alookup, Ne.symm hAB]

def state_a : CacheState :=
  applyOp tenv_ok (init_state "wd" false) (CacheOp.opSet "A" chunkA)

/-- C3, counterexample: with digest 7 first inserted under blob "A", a read or
prefetch of a same-digest descriptor under blob "B" shares entry 0, whose fd 0
is the file "wd/A" and whose stored descriptor is A's (decompressed offset 20,
not B's 40); no file for blob "B" is ever opened.  So B's chunk data is not
written into `{work_dir}/B` at its own offset, contradicting the claim. -/
theorem claim_C3_cex :
    cstate_set tenv_ok state_a "B" chunkB = Except.ok (0, state_a)
    ∧ state_a.entries 0 = some { status := CacheStatus.NotReady, chunk := chunkA, fd := 0 }
    ∧ alookup state_a.opened 0 = some "wd/A"
    ∧ alookup state_a.file_map "B" = none
    ∧ chunkB.decompress_offset ≠ chunkA.decompress_offset :=
  ⟨rfl, rfl, rfl, rfl, by decide⟩

/-- C3 witness: the amended claim applied at the counterexample input. -/
theorem claim_C3_wit :
    cstate_set tenv_ok state_a "B" chunkB = Except.ok (0, state_a)
    ∧ state_a.entries 0 =
        some { status := CacheStatus.NotReady, chunk := chunkA,
               fd := (init_state "wd" false).next_fd }
    ∧ alookup state_a.opened (init_state "wd" false).next_fd =
        some ((init_state "wd" false).work_dir ++ "/" ++ "A")
    ∧ alookup state_a.file_map "B" = alookup (init_state "wd" false).file_map "B" :=
  claim_C3_thm tenv_ok (init_state "wd" false) "A" "B" chunkA chunkB 0 state_a
    rfl rfl rfl rfl rfl (by decide) rfl

/-! Claim C4: `stop_prefetch`. -/

/-- Mirror of the sender construction in `new` (lines 611-618): the
merged-request sender exists iff prefetching is enabled. -/
def new_mr_sender (enable : Bool) : Option Unit :=
  if enable then some () else none

/-- Mirror of `RafsCache::stop_prefetch` (lines 532-535):
`drop(self.mr_sender.lock().unwrap().take().unwrap()); Ok(())`.  The input is
the contents of the `mr_sender` cell; the result carries the `RafsResult` and
the cell's new contents (`None` after `take`).  The outer `none` models the
panic of `.unwrap()` when the cell already holds `None`. -/
def stop_prefetch (mr_sender : Option Unit) : Option (Unit × Option Unit) :=
  match mr_sender with
  | some _ => some ((), none)
  | none => none

/-- C4, counterexample: on a cache constructed with prefetching disabled the
sender cell holds `None`, so `stop_prefetch` panics on `take().unwrap()` instead
of returning success; a second invocation after a successful `stop_prefetch`
panics the same way.  So `stop_prefetch` does not return success for every
cache state. -/
theorem claim_C4_cex :
    stop_prefetch (new_mr_sender false) = none
      ∧ (stop_prefetch (some ())).bind (fun p => stop_prefetch p.2) = none := by
  exact ⟨rfl, rfl⟩

/-- C4, amended: whenever the sender cell is non-empty (prefetching was enabled
and `stop_prefetch` has not run before), `stop_prefetch` drops the sender —
closing the merged-request channel and emptying the cell — and returns success;
when the cell is empty (prefetching disabled, or a second invocation) the
`unwrap` of `None` panics. -/
theorem claim_C4_thm (mr_sender : Option Unit) (h : mr_sender.isSome = true) :
    stop_prefetch mr_sender = some ((), none) := by
  cases mr_sender with
  | none => exact absurd h (by simp)
  | some u => rfl

/-- C4 witness: stopping prefetch on a cache constructed with prefetching
enabled succeeds and empties the sender cell. -/
theorem claim_C4_wit : stop_prefetch (new_mr_sender true) = some ((), none) :=
  claim_C4_thm (new_mr_sender true) rfl

/-! The prefetch worker (`kick_prefetch_workers`, lines 325-448). -/

/-- A merged backend request (`MergedBackendRequest`), as consumed by the
prefetch worker loop (lines 341-354). -/
structure MergedBackendRequest where
  blob_offset : Nat
  blob_size : Nat
  chunks : List ChunkInfo
  blob_id : String
  seq : Nat

/-- Worker collaborator outcomes.  Modelled from the spec: `read_chunks`
(cache/mod.rs, not under src/) is the batched backend fetch returning
decompressed bytes per chunk, abstracted to one overall outcome;
`persistResult c` is the outcome of the per-chunk persist `entry.cache`
(whose retry loop is detailed by `cacheWrite`), which sets the entry Ready
exactly when it succeeds. -/
structure WorkerEnv where
  readChunks : Except ErrKind Unit
  persistResult : ChunkInfo → Except ErrKind Unit

/-- Mirror of `NonZeroU32::new`: `none` exactly when the argument is zero. -/
def nonZeroU32New (n : Nat) : Option Nat :=
  if n = 0 then none else some n

/-- The readiness probe of the worker loop (lines 372-408): for each chunk of
the merged request, get-or-insert its entry (a chunk whose insert fails is
skipped); a Ready entry is skipped; otherwise a probe `read_blobcache_chunk`
from the entry's fd with the entry's stored descriptor, a buffer of the request
chunk's decompressed size and `need_validate = cache_validate` decides
recoverability — the first non-Ready, non-recoverable chunk sets `issue_batch`
and breaks the probe. -/
def probe_loop (cfg : Config) (env : IoEnv) (tenv : TableEnv) (blob_id : String) :
    List ChunkInfo → CacheState → Bool × CacheState
  | [], s => (false, s)
  | c :: cs, s =>
    match cstate_set tenv s blob_id c with
    | Except.error _ => probe_loop cfg env tenv blob_id cs s
    | Except.ok (eid, s1) =>
      match s1.entries eid with
      | none => probe_loop cfg env tenv blob_id cs s1
      | some e =>
        if e.is_ready then probe_loop cfg env tenv blob_id cs s1
        else if isOkE (read_blobcache_chunk cfg env e.fd e.chunk c.decompress_size cfg.validate)
        then probe_loop cfg env tenv blob_id cs s1
        else (true, s1)

/-- The batch-population loop (lines 420-442): after a successful batched
fetch, each chunk's entry is re-acquired via get-or-insert; if it is still
NotReady the fetched bytes are persisted through `entry.cache` at the entry's
stored compressed or decompressed offset; per-chunk errors are logged and do
not abort the batch. -/
def batch_loop (tenv : TableEnv) (wenv : WorkerEnv) (blob_id : String) :
    List ChunkInfo → CacheState → CacheState
  | [], s => s
  | c :: cs, s =>
    match cstate_set tenv s blob_id c with
    | Except.error _ => batch_loop tenv wenv blob_id cs s
    | Except.ok (eid, s1) =>
      match s1.entries eid with
      | none => batch_loop tenv wenv blob_id cs s1
      | some e =>
        if e.is_ready then batch_loop tenv wenv blob_id cs s1
        else
          match wenv.persistResult c with
          | Except.ok _ => batch_loop tenv wenv blob_id cs (update_entry s1 eid e.set_ready)
          | Except.error _ => batch_loop tenv wenv blob_id cs s1

/-- Observable actions of one worker iteration. -/
structure WorkerTrace where
  limiter_cells : Option Nat
  skipped_empty : Bool
  issue_batch : Bool
  batch_called : Bool
  deriving DecidableEq, Repr

/-- One iteration of the prefetch worker loop (lines 341-444) on a received
merged request: an empty (`blob_size == 0`) request is skipped before the
limiter; otherwise, when a limiter is configured, `blob_size` cells are
requested through `NonZeroU32::new(blob_size).unwrap()` (the outer `none`
models that unwrap panicking); then the readiness probe runs, and only when it
flipped `issue_batch` is the batched backend fetch `read_chunks` called,
followed by entry population. -/
def worker_iteration (cfg : Config) (env : IoEnv) (tenv : TableEnv) (wenv : WorkerEnv)
    (limiter_configured : Bool) (s : CacheState) (mr : MergedBackendRequest) :
    Option (CacheState × WorkerTrace) :=
  if mr.blob_size = 0 then
    some (s, { limiter_cells := none, skipped_empty := true,
               issue_batch := false, batch_called := false })
  else
    match (if limiter_configured then (nonZeroU32New mr.blob_size).map some
           else some none) with
    | none => none
    | some cells =>
      match probe_loop cfg env tenv mr.blob_id mr.chunks s with
      | (false, s1) =>
        some (s1, { limiter_cells := cells, skipped_empty := false,
                    issue_batch := false, batch_called := false })
      | (true, s1) =>
        match wenv.readChunks with
        | Except.ok _ =>
          some (batch_loop tenv wenv mr.blob_id mr.chunks s1,
            { limiter_cells := cells, skipped_empty := false,
              issue_batch := true, batch_called := true })
        | Except.error _ =>
          some (s1, { limiter_cells := cells, skipped_empty := false,
                      issue_batch := true, batch_called := true })

/-- The fd a get-or-insert under `blob_id` would hand to a fresh entry in state
`s`: the memoized fd if the blob file is open, else the next fd when the open
(and, if sizes are authoritative, the size query) would succeed. -/
def fd_for_blob (tenv : TableEnv) (s : CacheState) (blob_id : String) : Option Nat :=
  match alookup s.file_map blob_id with
  | some fdsz => some fdsz.1
  | none =>
    if tenv.openOk blob_id then
      match (if s.backend_size_valid then tenv.blobSize blob_id else Except.ok 0) with
      | Except.error _ => none
      | Except.ok _ => some s.next_fd
    else none

/-- The entry the readiness probe would examine for chunk `c` in state `s`:
the stored entry when the digest is mapped, else the fresh NotReady entry a
successful insert would create. -/
def probe_entry (tenv : TableEnv) (s : CacheState) (blob_id : String) (c : ChunkInfo) :
    Option BlobCacheEntry :=
  match alookup s.chunk_map c.block_id with
  | some eid => s.entries eid
  | none => (fd_for_blob tenv s blob_id).map
      (fun fd => { status := CacheStatus.NotReady, chunk := c, fd := fd })

/-- Chunk `c` makes the probe flip `issue_batch` in state `s`: its entry exists
(or can be inserted), is not Ready, and the probe read of the cache file fails. -/
def chunk_not_recoverable (cfg : Config) (env : IoEnv) (tenv : TableEnv) (s : CacheState)
    (blob_id : String) (c : ChunkInfo) : Bool :=
  match probe_entry tenv s blob_id c with
  | none => false
  | some e =>
    !e.is_ready &&
      !(isOkE (read_blobcache_chunk cfg env e.fd e.chunk c.decompress_size cfg.validate))

/-! Probe-loop characterization lemmas for claim C8. -/

theorem cstate_set_hit (tenv : TableEnv) (b : String) {s : CacheState} {cki : ChunkInfo}
    {eid : Nat} (h : alookup s.chunk_map cki.block_id = some eid) :
    cstate_set tenv s b cki = Except.ok (eid, s) := by
  simp only [cstate_set, h]

theorem get_blob_fd_none {tenv : TableEnv} {s : CacheState} {b : String}
    (hnone : fd_for_blob tenv s b = none) :
    ∃ k, get_blob_fd tenv s b = Except.error k := by
  cases halook : alookup s.file_map b with
  | some fdsz => simp [fd_for_blob, halook] at hnone
  | none =>
    by_cases hop : tenv.openOk b = true
    · cases hq : (if s.backend_size_valid then tenv.blobSize b else Except.ok 0) with
      | error k =>
        refine ⟨k, ?_⟩
        simp [get_blob_fd, halook, hop, hq]
      | ok sz => simp [fd_for_blob, halook, hop, hq] at hnone
    · refine ⟨ErrKind.IoOther, ?_⟩
      simp only [Bool.not_eq_true] at hop
      simp [get_blob_fd, halook, hop]

theorem get_blob_fd_some {tenv : TableEnv} {s : CacheState} {b : String} {fd : Nat}
    (hfd : fd_for_blob tenv s b = some fd) :
    ∃ sz s1, get_blob_fd tenv s b = Except.ok ((fd, sz), s1)
      ∧ fd_for_blob tenv s1 b = some fd
      ∧ s1.chunk_map = s.chunk_map ∧ s1.entries = s.entries ∧ s1.next_id = s.next_id := by
  cases halook : alookup s.file_map b with
  | some fdsz =>
    simp only [fd_for_blob, halook, Option.some.injEq] at hfd
    refine ⟨fdsz.2, s, ?_, ?_, rfl, rfl, rfl⟩
    · simp [get_blob_fd, halook, ← hfd]
    · simp [fd_for_blob, halook, hfd]
  | none =>
    by_cases hop : tenv.openOk b = true
    · cases hq : (if s.backend_size_valid then tenv.blobSize b else Except.ok 0) with
      | error k => simp [fd_for_blob, halook, hop, hq] at hfd
      | ok sz =>
        have hfd2 : fd = s.next_fd := by
          simp only [fd_for_blob, halook, hop, if_true, hq, Option.some.injEq] at hfd
          exact hfd.symm
        subst hfd2
        refine ⟨sz,
          { s with file_map := (b, (s.next_fd, sz)) :: s.file_map,
                   opened := (s.next_fd, s.work_dir ++ "/" ++ b) :: s.opened,
                   next_fd := s.next_fd + 1 }, ?_, ?_, rfl, rfl, rfl⟩
        · simp [get_blob_fd, halook, hop, hq]
        · simp [fd_for_blob, alookup]
    · simp only [Bool.not_eq_true] at hop
      simp [fd_for_blob, halook, hop] at hfd

theorem cstate_set_err {tenv : TableEnv} {s : CacheState} {b : String} {cki : ChunkInfo}
    {k : ErrKind} (h1 : alookup s.chunk_map cki.block_id = none)
    (h2 : get_blob_fd tenv s b = Except.error k) :
    cstate_set tenv s b cki = Except.error k := by
  simp only [cstate_set, h1, h2]

theorem if_self_eq {α : Sort _} (a : Nat) (x y : α) : (if a = a then x else y) = x :=
  if_pos rfl

theorem fd_for_blob_congr {tenv : TableEnv} {s1 s2 : CacheState} {b : String}
    (h1 : s1.file_map = s2.file_map) (h2 : s1.backend_size_valid = s2.backend_size_valid)
    (h3 : s1.next_fd = s2.next_fd) :
    fd_for_blob tenv s1 b = fd_for_blob tenv s2 b := by
  unfold fd_for_blob
  rw [h1, h2, h3]

/-- Relates a probe state `s` back to the worker's starting state `s0` while the
probe walks a merged request whose remaining digests are `R`: lookups of the
remaining digests, of the entries that existed at start, and the fd a fresh
insert would use are all unchanged. -/
structure ProbeInv (tenv : TableEnv) (blob_id : String) (s0 s : CacheState)
    (R : List Nat) : Prop where
  cm : ∀ d ∈ R, alookup s.chunk_map d = alookup s0.chunk_map d
  ent : ∀ j, j < s0.next_id → s.entries j = s0.entries j
  nid : s0.next_id ≤ s.next_id
  fdc : fd_for_blob tenv s blob_id = fd_for_blob tenv s0 blob_id

theorem ProbeInv.weaken {tenv : TableEnv} {blob_id : String} {s0 s : CacheState}
    {d : Nat} {R : List Nat} (h : ProbeInv tenv blob_id s0 s (d :: R)) :
    ProbeInv tenv blob_id s0 s R :=
  ⟨fun x hx => h.cm x (List.mem_cons_of_mem _ hx), h.ent, h.nid, h.fdc⟩

theorem probe_loop_any (cfg : Config) (env : IoEnv) (tenv : TableEnv) (blob_id : String)
    (s0 : CacheState) (hwf : StateWF s0) :
    ∀ (cs : List ChunkInfo) (s : CacheState),
      ProbeInv tenv blob_id s0 s (cs.map ChunkInfo.block_id) →
      (cs.map ChunkInfo.block_id).Nodup →
      (probe_loop cfg env tenv blob_id cs s).1 =
        cs.any (chunk_not_recoverable cfg env tenv s0 blob_id) := by
  intro cs
  induction cs with
  | nil =>
    intro s _ _
    rfl
  | cons c rest ih =>
    intro s hinv hnd
    have hcm : alookup s.chunk_map c.block_id = alookup s0.chunk_map c.block_id :=
      hinv.cm c.block_id (by simp)
    simp only [List.map_cons, List.nodup_cons] at hnd
    have hcnotin : c.block_id ∉ rest.map ChunkInfo.block_id := hnd.1
    have hndrest : (rest.map ChunkInfo.block_id).Nodup := hnd.2
    rw [List.any_cons]
    cases hlk : alookup s0.chunk_map c.block_id with
    | some eid =>
      have heid_lt : eid < s0.next_id := hwf.cm_lt (c.block_id, eid) (alookup_mem hlk)
      have hset := cstate_set_hit tenv blob_id (hcm.trans hlk)
      have hent : s.entries eid = s0.entries eid := hinv.ent eid heid_lt
      have hrec := ih s hinv.weaken hndrest
      cases he : s0.entries eid with
      | none =>
        have hbad : chunk_not_recoverable cfg env tenv s0 blob_id c = false := by
          simp [chunk_not_recoverable, probe_entry, hlk, he]
        simp only [probe_loop, hset, hent, he]
        rw [hbad, Bool.false_or]
        exact hrec
      | some e =>
        have hbad : chunk_not_recoverable cfg env tenv s0 blob_id c =
            (!e.is_ready && !(isOkE (read_blobcache_chunk cfg env e.fd e.chunk
              c.decompress_size cfg.validate))) := by
          simp [chunk_not_recoverable, probe_entry, hlk, he]
        simp only [probe_loop, hset, hent, he]
        rw [hbad]
        cases hr : e.is_ready with
        | true => simp [hrec, hr]
        | false =>
          cases hok : isOkE (read_blobcache_chunk cfg env e.fd e.chunk
              c.decompress_size cfg.validate) with
          | true => simp [hrec, hr, hok]
          | false => simp [hr, hok]
    | none =>
      have hlks : alookup s.chunk_map c.block_id = none := hcm.trans hlk
      cases hfb : fd_for_blob tenv s0 blob_id with
      | none =>
        obtain ⟨k, hgf⟩ := get_blob_fd_none (hinv.fdc.trans hfb)
        have hset := cstate_set_err hlks hgf
        have hbad : chunk_not_recoverable cfg env tenv s0 blob_id c = false := by
          simp [chunk_not_recoverable, probe_entry, hlk, hfb]
        simp only [probe_loop, hset]
        rw [hbad, Bool.false_or]
        exact ih s hinv.weaken hndrest
      | some fd =>
        obtain ⟨sz, s', hgf, hfd', hcm', hent', hnid'⟩ :=
          get_blob_fd_some (hinv.fdc.trans hfb)
        have hset : cstate_set tenv s blob_id c = Except.ok (s'.next_id,
            { s' with
              entries := fun j => if j = s'.next_id then
                some { status := CacheStatus.NotReady, chunk := c, fd := fd }
                else s'.entries j,
              chunk_map := (c.block_id, s'.next_id) :: s'.chunk_map,
              next_id := s'.next_id + 1 }) := by
          simp only [cstate_set, hlks, hgf]
        have hbad : chunk_not_recoverable cfg env tenv s0 blob_id c =
            !(isOkE (read_blobcache_chunk cfg env fd c c.decompress_size cfg.validate)) := by
          simp [chunk_not_recoverable, probe_entry, hlk, hfb, BlobCacheEntry.is_ready]
        have hn := hinv.nid
        have hinv2 : ProbeInv tenv blob_id s0
            ({ s' with
              entries := fun j => if j = s'.next_id then
                some { status := CacheStatus.NotReady, chunk := c, fd := fd }
                else s'.entries j,
              chunk_map := (c.block_id, s'.next_id) :: s'.chunk_map,
              next_id := s'.next_id + 1 }) (rest.map ChunkInfo.block_id) := by
          refine ⟨?_, ?_, ?_, ?_⟩
          · intro d hd
            have hne : c.block_id ≠ d := fun hc => hcnotin (hc ▸ hd)
            show alookup ((c.block_id, s'.next_id) :: s'.chunk_map) d = _
            rw [alookup, if_neg hne, hcm']
            exact hinv.cm d (List.mem_cons_of_mem _ hd)
          · intro j hj
            have hjne : j ≠ s'.next_id := by omega
            show (if j = s'.next_id then
                some { status := CacheStatus.NotReady, chunk := c, fd := fd }
                else s'.entries j) = _
            rw [if_neg hjne, hent']
            exact hinv.ent j hj
          · show s0.next_id ≤ s'.next_id + 1
            omega
          · exact (fd_for_blob_congr rfl rfl rfl).trans (hfd'.trans hfb.symm)
        have hrec := ih _ hinv2 hndrest
        simp only [probe_loop, hset, if_self_eq, BlobCacheEntry.is_ready]
        rw [hbad]
        cases hok : isOkE (read_blobcache_chunk cfg env fd c c.decompress_size
            cfg.validate) with
        | true => simp [hrec, hok]
        | false => simp [hok]

/-! Claims C10 and C8. -/

/-- C10: one worker iteration never panics: in particular the unchecked
`NonZeroU32::new(blob_size).unwrap()` for the rate-limiter cells is only
evaluated after requests with `blob_size = 0` were skipped earlier in the same
iteration, so the result of an iteration is always `some`. -/
theorem claim_C10_thm (cfg : Config) (env : IoEnv) (tenv : TableEnv) (wenv : WorkerEnv)
    (lim : Bool) (s : CacheState) (mr : MergedBackendRequest) :
    (worker_iteration cfg env tenv wenv lim s mr).isSome = true := by
  rw [worker_iteration]
  by_cases h0 : mr.blob_size = 0
  · rw [if_pos h0]
    rfl
  · rw [if_neg h0]
    have hcells : (if lim then (nonZeroU32New mr.blob_size).map some else some none) =
        some (if lim then some mr.blob_size else none) := by
      cases lim
      · rfl
      · simp [nonZeroU32New, h0]
    rw [hcells]
    rcases hp : probe_loop cfg env tenv mr.blob_id mr.chunks s with ⟨b, sp⟩
    cases b
    · rfl
    · cases wenv.readChunks
      · rfl
      · rfl

/-- C8: in a worker iteration over a merged request (whose chunks carry
distinct digests, as produced by merging contiguous distinct chunks), if
`blob_size = 0` the request is skipped entirely — no limiter cells are
requested, no probe runs, the state is untouched and no fetch is issued;
otherwise the batched backend fetch is called if and only if the readiness
probe finds some chunk whose entry (existing or freshly insertable) is not
Ready and whose probe read from the cache file fails. -/
theorem claim_C8_thm (cfg : Config) (env : IoEnv) (tenv : TableEnv) (wenv : WorkerEnv)
    (lim : Bool) (s : CacheState) (mr : MergedBackendRequest)
    (s1 : CacheState) (tr : WorkerTrace)
    (hwf : StateWF s)
    (hnd : (mr.chunks.map ChunkInfo.block_id).Nodup)
    (hrun : worker_iteration cfg env tenv wenv lim s mr = some (s1, tr)) :
    (mr.blob_size = 0 →
      tr = { limiter_cells := none, skipped_empty := true,
             issue_batch := false, batch_called := false } ∧ s1 = s)
    ∧ (mr.blob_size ≠ 0 →
        (tr.batch_called = true ↔
          mr.chunks.any (chunk_not_recoverable cfg env tenv s mr.blob_id) = true)
        ∧ tr.issue_batch = tr.batch_called) := by
  have hany := probe_loop_any cfg env tenv mr.blob_id s hwf mr.chunks s
    ⟨fun _ _ => rfl, fun _ _ => rfl, le_refl _, rfl⟩ hnd
  constructor
  · intro h0
    rw [worker_iteration, if_pos h0] at hrun
    simp only [Option.some.injEq, Prod.mk.injEq] at hrun
    exact ⟨hrun.2.symm, hrun.1.symm⟩
  · intro hne
    have hcells : (if lim then (nonZeroU32New mr.blob_size).map some else some none) =
        some (if lim then some mr.blob_size else none) := by
      cases lim
      · rfl
      · simp [nonZeroU32New, hne]
    rcases hp : probe_loop cfg env tenv mr.blob_id mr.chunks s with ⟨b, sp⟩
    rw [hp] at hany
    have hb : b = mr.chunks.any (chunk_not_recoverable cfg env tenv s mr.blob_id) := hany
    simp only [worker_iteration, hne, hcells, hp, if_false] at hrun
    cases b with
    | false =>
      simp only [Option.some.injEq, Prod.mk.injEq] at hrun
      rw [← hrun.2, ← hb]
      exact ⟨by simp, rfl⟩
    | true =>
      cases hrc : wenv.readChunks with
      | ok u =>
        rw [hrc] at hrun
        simp only [Option.some.injEq, Prod.mk.injEq] at hrun
        rw [← hrun.2, ← hb]
        exact ⟨by simp, rfl⟩
      | error k =>
        rw [hrc] at hrun
        simp only [Option.some.injEq, Prod.mk.injEq] at hrun
        rw [← hrun.2, ← hb]
        exact ⟨by simp, rfl⟩

def mr_c8 : MergedBackendRequest :=
  { blob_offset := 0, blob_size := 4, chunks := [chunkA], blob_id := "A", seq := 0 }

def wenv_c8 : WorkerEnv :=
  { readChunks := Except.ok (), persistResult := fun _ => Except.ok () }

def wtrace_c8 : WorkerTrace :=
  { limiter_cells := some 4, skipped_empty := false, issue_batch := true, batch_called := true }

def wstate_c8 : CacheState :=
  batch_loop tenv_ok wenv_c8 "A" [chunkA]
    (probe_loop cfg_u env_persist_fail tenv_ok "A" [chunkA] (init_state "wd" false)).2

/-- C8 witness: a one-chunk merged request over a cold cache whose probe read
fails issues the batch fetch. -/
theorem claim_C8_wit :
    (mr_c8.blob_size = 0 →
      wtrace_c8 = { limiter_cells := none, skipped_empty := true,
                    issue_batch := false, batch_called := false }
        ∧ wstate_c8 = init_state "wd" false)
    ∧ (mr_c8.blob_size ≠ 0 →
        (wtrace_c8.batch_called = true ↔
          mr_c8.chunks.any (chunk_not_recoverable cfg_u env_persist_fail tenv_ok
            (init_state "wd" false) mr_c8.blob_id) = true)
        ∧ wtrace_c8.issue_batch = wtrace_c8.batch_called) :=
  claim_C8_thm cfg_u env_persist_fail tenv_ok wenv_c8 true (init_state "wd" false) mr_c8
    wstate_c8 wtrace_c8 (stateWF_init "wd" false) (by decide) rfl

end BlobCacheModel
